import Mathlib

/-!
Verification development for the jobot repository.

The file embeds, as Lean definitions, the parts of the repository that the
verified properties are about:

* the Chrome-extension options page save-token handler
  (chrome_extension options script),
* the Chrome-extension popup fill-form flow (chrome_extension/popup.js),
* the dashboard profile-form serialization and cleanup
  (backend/static/dashboard.js, saveProfileButton handler),
* the Profile-Refinement Pipeline and Job Matching Engine core.  The Python
  backend implementing that core (main.py, job_matching_service.py, the stage
  strategies) is not part of the source tree here — only its design documents
  and JavaScript callers are — so those definitions are modelled from the
  specification text and are marked as such in their doc comments.

Theorems after the definitions settle the stated properties.
-/

/-! ## String primitives

The JavaScript string operations the embedded code uses — trim, split on a
one-character separator, substring containment — are modelled structurally
over the character list of the string, so that every definition in this
file evaluates inside the kernel. -/

/-- JavaScript String.prototype.trim: strip leading and trailing
whitespace. -/
def jsTrim (s : String) : String :=
  ⟨((s.data.dropWhile Char.isWhitespace).reverse.dropWhile Char.isWhitespace).reverse⟩

/-- Split a character list on a separator character; an empty input gives
one empty group, as JavaScript split does. -/
def splitChars (c : Char) : List Char → List (List Char)
  | [] => [[]]
  | x :: xs =>
    if x = c then [] :: splitChars c xs
    else
      match splitChars c xs with
      | [] => [[x]]
      | g :: gs => (x :: g) :: gs

/-- JavaScript String.prototype.split with a one-character separator. -/
def jsSplit (s : String) (c : Char) : List String :=
  (splitChars c s.data).map String.mk

/-- Whether the pattern occurs at the start of the character list. -/
def startsWithChars : List Char → List Char → Bool
  | [], _ => true
  | _ :: _, [] => false
  | p :: ps, x :: xs => p == x && startsWithChars ps xs

/-- Whether the pattern occurs anywhere in the character list. -/
def mentionsChars : List Char → List Char → Bool
  | [], pat => pat.isEmpty
  | x :: xs, pat => startsWithChars pat (x :: xs) || mentionsChars xs pat

/-- JavaScript String.prototype.includes. -/
def strMentions (s pat : String) : Bool :=
  mentionsChars s.data pat.data

/-- Numeric value of a digit string, as parseInt reads the index digits of
a form-field name. -/
def digitsToNat (ds : List Char) : Nat :=
  ds.foldl (fun n c => 10 * n + (c.toNat - 48)) 0

/-! ## Chrome extension options page: save-token click handler -/

/-- Result of one click of the save-token button on the extension options
page: the token held in extension storage afterwards, and the status line
shown to the user. -/
structure OptionsOutcome where
  storedToken : Option String
  status : String
deriving DecidableEq, Repr

/-- The save-token click handler from the extension options script.
The handler trims the textarea value; a non-empty trimmed token that splits
on a dot into exactly three parts is written to extension storage with a
success status, any other input leaves storage untouched and shows an error
status. -/
def saveTokenClick (stored : Option String) (input : String) : OptionsOutcome :=
  let token := jsTrim input
  if token ≠ "" then
    if (jsSplit token '.').length = 3 then
      { storedToken := some token, status := "Token saved successfully!" }
    else
      { storedToken := stored, status := "Invalid token format. Please paste a valid JWT." }
  else
    { storedToken := stored, status := "Please enter a token." }

/-! ## Chrome extension popup: fill-form flow (popup.js) -/

/-- Contact sub-object of the profile used by autoFillForm in popup.js. -/
structure ContactInfo where
  email : Option String
  phone : Option String
deriving DecidableEq, Repr

/-- Profile fields read by autoFillForm in popup.js. -/
structure ProfileData where
  name : Option String
  location : Option String
  address : Option String
  postal_code : Option String
  linkedin_url : Option String
  portfolio_url : Option String
  contact_info : Option ContactInfo
deriving DecidableEq, Repr

/-- Outcome of the profile API request issued by the fill-form click
handler.  A non-ok HTTP status and a network error both throw and land in
the same catch handler, so they are a single error case. -/
inductive FetchResult where
  | ok : ProfileData → FetchResult
  | err : FetchResult
deriving DecidableEq, Repr

/-- The fill-form click flow from popup.js, given the cached profile in
chrome.storage.local and the outcome of the API request.  Returns the cache
after the flow and the profile handed to injectAutoFill (none when no form
fill happens).  On success the fetched profile is cached and used; on
failure the cached profile is used when present, otherwise only an alert is
shown. -/
def fillFormFlow (cache : Option ProfileData) (result : FetchResult) :
    Option ProfileData × Option ProfileData :=
  match result with
  | .ok profileData => (some profileData, some profileData)
  | .err =>
    match cache with
    | some cached => (cache, some cached)
    | none => (cache, none)

/-! ## Dashboard profile-form serialization (dashboard.js, saveProfileButton)

The save handler walks the FormData entries, splits each field name on
dots, navigates/creates nested objects and arrays for the leading segments
(a segment of the shape name[digits] addresses an array element), and
assigns the value at the final segment — split on commas and trimmed when
the final segment mentions skills or suggested keywords, verbatim
otherwise.  Afterwards the work_experience and education arrays are
filtered, dropping missing items and items without any truthy value, and
the result is PUT to the profile endpoint. -/

/-- Dynamic JSON-like value built by the serialization loop.  Arrays carry
optional elements because removing an item card leaves later form-field
indices untouched, so the rebuilt array can have holes exactly as the
JavaScript array does. -/
inductive JVal where
  | str : String → JVal
  | strList : List String → JVal
  | obj : List (String × JVal) → JVal
  | arr : List (Option JVal) → JVal

/-- An object is its ordered field list. -/
abbrev JObj := List (String × JVal)

/-- JavaScript truthiness of the values the serialization loop stores:
the empty string is falsy, every array and object is truthy. -/
def jtruthy : JVal → Bool
  | .str s => !s.isEmpty
  | .strList _ => true
  | .obj _ => true
  | .arr _ => true

/-- Property read: first binding wins, as in an object's property table
(the builder below keeps keys unique). -/
def getField : JObj → String → Option JVal
  | [], _ => none
  | kv :: rest, k => if kv.1 = k then some kv.2 else getField rest k

/-- Property write: update an existing binding in place, otherwise append,
matching property update/insertion order on a JavaScript object. -/
def setField : JObj → String → JVal → JObj
  | [], k, v => [(k, v)]
  | kv :: rest, k, v => if kv.1 = k then (k, v) :: rest else kv :: setField rest k v

/-- Array element read; out-of-range indices and holes read as undefined. -/
def getIdx (elems : List (Option JVal)) (i : Nat) : Option JVal :=
  elems.getD i none

/-- Array element write; writing past the end pads with holes, as assigning
to a large index of a JavaScript array does. -/
def setIdx (elems : List (Option JVal)) (i : Nat) (v : JVal) : List (Option JVal) :=
  if i < elems.length then elems.set i (some v)
  else elems ++ List.replicate (i - elems.length) none ++ [some v]

/-- The value stored at the final path segment: names mentioning skills or
suggested keywords are sent as the comma-split, trimmed list; every other
name is sent as the raw string value (dashboard.js, the final-key branch of
the serialization loop). -/
def entryValue (finalKey value : String) : JVal :=
  if strMentions finalKey "skills" || strMentions finalKey "suggested_keywords" then
    .strList ((jsSplit value ',').map jsTrim)
  else
    .str value

/-- Recognizer for a navigation segment of the shape name[digits], the
shape matched by the segment regular expression in the loop.  Segments of
any other shape are treated as plain property names, as the loop does when
the regular expression does not match. -/
def arraySegment (seg : String) : Option (String × Nat) :=
  match splitChars '[' seg.data with
  | [k, rest] =>
    if rest.getLast? = some ']' then
      let digits := rest.dropLast
      if digits ≠ [] ∧ digits.all Char.isDigit ∧ k ≠ [] then
        some (String.mk k, digitsToNat digits)
      else none
    else none
  | _ => none

/-- Core of the serialization loop for one FormData entry: walk the
navigation segments from the current container, materializing missing
objects and arrays (a falsy existing value is replaced by a fresh
container, exactly as the loop's if-not-present checks do), and assign
entryValue at the final key.  When the walk runs into a primitive value the
JavaScript assignment is a silent no-op on a temporary, so the entry leaves
the structure unchanged; that is returned here unchanged as well. -/
def insertGo : JVal → List String → String → String → JVal
  | JVal.obj fields, [], finalKey, value =>
    JVal.obj (setField fields finalKey (entryValue finalKey value))
  | cur, [], _, _ => cur
  | JVal.obj fields, seg :: rest, finalKey, value =>
    match arraySegment seg with
    | some (arrayKey, idx) =>
      let a := match getField fields arrayKey with
               | some v => if jtruthy v then v else JVal.arr []
               | none => JVal.arr []
      match a with
      | JVal.arr elems =>
        let child := match getIdx elems idx with
                     | some v => if jtruthy v then v else JVal.obj []
                     | none => JVal.obj []
        JVal.obj (setField fields arrayKey
          (JVal.arr (setIdx elems idx (insertGo child rest finalKey value))))
      | _ => JVal.obj fields
    | none =>
      let child := match getField fields seg with
                   | some v => if jtruthy v then v else JVal.obj []
                   | none => JVal.obj []
      JVal.obj (setField fields seg (insertGo child rest finalKey value))
  | cur, _ :: _, _, _ => cur

/-- One FormData entry folded into the profile object: the name is split on
dots, all segments but the last navigate, the last is the assigned key. -/
def insertEntry (root : JObj) (key value : String) : JObj :=
  let path := jsSplit key '.'
  match insertGo (JVal.obj root) path.dropLast (path.getLastD "") value with
  | .obj fields => fields
  | _ => root

/-- The profile object built from all FormData entries in order. -/
def buildProfileData (entries : List (String × String)) : JObj :=
  entries.foldl (fun acc e => insertEntry acc e.1 e.2) []

/-- The cleanup predicate on an array item: kept when the item is present,
truthy, and some of its values is truthy (dashboard.js cleanup filter). -/
def keepItem : Option JVal → Bool
  | none => false
  | some v =>
    jtruthy v &&
    (match v with
     | .obj fields => fields.any (fun kv => jtruthy kv.2)
     | .str s => !s.isEmpty
     | .strList l => l.any (fun x => !x.isEmpty)
     | .arr elems => elems.any (fun e => match e with
                                         | some w => jtruthy w
                                         | none => false))

/-- The cleanup pass for one of the two list-cluster keys: when the key
holds an array, filter it with keepItem (the filter also compacts holes,
which keepItem rejects).  The profile form only ever stores arrays under
these keys, so other shapes pass through unchanged. -/
def filterKey (root : JObj) (key : String) : JObj :=
  match getField root key with
  | some (JVal.arr items) => setField root key (JVal.arr (items.filter keepItem))
  | _ => root

/-- Cleanup of the built object before the PUT request: drop empty
work_experience and education items. -/
def cleanupProfileData (root : JObj) : JObj :=
  filterKey (filterKey root "work_experience") "education"

/-- The body of the PUT request issued by the save-profile handler. -/
def serializeProfileForm (entries : List (String × String)) : JObj :=
  cleanupProfileData (buildProfileData entries)

/-! ## Profile-Refinement Pipeline and Job Matching Engine core

The Python backend that implements this core (main.py,
job_matching_service.py and the stage strategies described in the design
documents) is not under the source tree; only its design documents and its
JavaScript callers are.  The definitions in this section therefore follow
the specification text, and each doc comment says so. -/

/-- Modelled from the spec: the cluster keys of the candidate-profile data
model (the backend profile schema is missing from the tree).  The named
clusters carry the listed weights of the scoring weight table; the one
remaining cluster of the model, volunteer experience, shares the rest. -/
inductive ClusterKey where
  | name
  | contact_info
  | work_experience
  | education
  | skills
  | summary
  | volunteer_experience
deriving DecidableEq, Repr

/-- Modelled from the spec: a profile cluster with structured content, an
inclusion toggle, a confidence in the unit interval and an optional
omission reason (backend profile schema missing from the tree). -/
structure Cluster where
  data : List String
  includeFlag : Bool
  confidence : ℚ
  omission_reason : Option String
deriving DecidableEq, Repr

/-- Modelled from the spec: the list of defined cluster keys, all of which
must stay present in a stored profile even when empty. -/
def definedKeys : List ClusterKey :=
  [.name, .contact_info, .work_experience, .education, .skills, .summary,
   .volunteer_experience]

/-- Modelled from the spec: the profile as stored, a binding per defined
cluster key (backend profile storage missing from the tree). -/
abbrev ProfileStore := List (ClusterKey × Cluster)

/-- Modelled from the spec: toggling a cluster's inclusion flag.  The
cluster is updated in place and never deleted, keeping its data and
confidence. -/
def setClusterInclude (p : ProfileStore) (k : ClusterKey) (b : Bool) : ProfileStore :=
  p.map (fun kc => if kc.1 = k then (kc.1, { kc.2 with includeFlag := b }) else kc)

/-- Modelled from the spec: updating a cluster's content and confidence in
place; other clusters and the key set are untouched. -/
def setClusterData (p : ProfileStore) (k : ClusterKey) (d : List String) (conf : ℚ) :
    ProfileStore :=
  p.map (fun kc => if kc.1 = k then (kc.1, { kc.2 with data := d, confidence := conf }) else kc)

/-- Modelled from the spec: reading a cluster from the stored profile. -/
def getCluster : ProfileStore → ClusterKey → Option Cluster
  | [], _ => none
  | kc :: rest, k => if kc.1 = k then some kc.2 else getCluster rest k

/-- Modelled from the spec: the fixed scoring weight table (name 5, contact
info 10, work experience 20, education 15, skills 15, summary 10, the
remaining cluster sharing the rest of the 100 points). -/
def clusterWeight : ClusterKey → ℕ
  | .name => 5
  | .contact_info => 10
  | .work_experience => 20
  | .education => 15
  | .skills => 15
  | .summary => 10
  | .volunteer_experience => 25

/-- Modelled from the spec: a cluster's contribution to the completeness
score — the full weight when included with confidence at least one half, a
partial fraction (taken proportional to confidence, the specification
leaves the exact fraction an implementation choice) otherwise. -/
def contribution (w : ℕ) (c : Cluster) : ℚ :=
  if c.includeFlag = true ∧ (1 : ℚ) / 2 ≤ c.confidence then (w : ℚ)
  else (w : ℚ) * c.confidence

/-- Modelled from the spec: the completeness score, a weighted sum of the
cluster contributions over the defined cluster keys. -/
def completenessScore (p : ClusterKey → Cluster) : ℚ :=
  (definedKeys.map (fun k => contribution (clusterWeight k) (p k))).sum

/-- Modelled from the spec: merging one iteration's stage deltas into the
run's profile.  The merge policy only adds information (list clusters are
appended and deduplicated, never overwritten wholesale, and the Writer adds
no new factual clusters), so each cluster's confidence is raised to the
best evidence seen, clamped into the unit interval; inclusion flags are an
attribute of the cluster, not of the delta, and stay as they are. -/
def mergeAnswers (p : ClusterKey → Cluster) (gain : ClusterKey → ℚ) : ClusterKey → Cluster :=
  fun k => { p k with confidence := min 1 (max (p k).confidence (gain k)) }

/-- Modelled from the spec: the orchestrator configuration — convergence
target, iteration budget and per-iteration question cap. -/
structure PipelineConfig where
  target : ℚ
  max_iterations : ℕ
  pending_questions_max : ℕ
deriving Repr

/-- Modelled from the spec: the default configuration (target 90, two
iterations, five pending questions). -/
def defaultConfig : PipelineConfig :=
  { target := 90, max_iterations := 2, pending_questions_max := 5 }

/-- Modelled from the spec: the orchestrator states. -/
inductive RunPhase where
  | NEW
  | PARSING
  | SCORING
  | VALIDATING
  | WRITING
  | CONVERGED
  | DEGRADED
  | FAILED
deriving DecidableEq, Repr

/-- Modelled from the spec: a pipeline run — profile snapshot, completeness
score, iteration counter, state, and the running count of questions emitted
to the conversation channel. -/
structure PipelineRun where
  profile : ClusterKey → Cluster
  completeness_score : ℚ
  iteration : ℕ
  phase : RunPhase
  questionsAsked : ℕ

/-- Modelled from the spec: an all-empty cluster (no data, included by
default, confidence zero). -/
def emptyCluster : Cluster :=
  { data := [], includeFlag := true, confidence := 0, omission_reason := none }

/-- Modelled from the spec: the Parser stage on empty extracted text yields
an all-empty delta with confidence zero for every cluster. -/
def parseEmptyText : ClusterKey → Cluster := fun _ => emptyCluster

/-- Modelled from the spec: a run entering the loop — the parsed profile is
scored, the iteration counter starts at one, the state is the SCORING head
of the loop, no question has been asked yet. -/
def initRun (parsed : ClusterKey → Cluster) : PipelineRun :=
  { profile := parsed
    completeness_score := completenessScore parsed
    iteration := 1
    phase := .SCORING
    questionsAsked := 0 }

/-- Modelled from the spec: the Feedback stage emits up to the configured
maximum of targeted questions, never re-asking about a cluster whose
confidence is already at least 0.8. -/
def emitQuestions (cfg : PipelineConfig) (p : ClusterKey → Cluster) : ℕ :=
  min cfg.pending_questions_max
    ((definedKeys.filter (fun k => decide ((p k).confidence < 4 / 5))).length)

/-- Modelled from the spec: the inbound material of one loop iteration —
the per-cluster confidence gains extracted from the conversation by the
stages, and whether the completion-service dependency failed beyond its
retry budget during this iteration. -/
structure IterationInput where
  confidenceGain : ClusterKey → ℚ
  upstreamFailed : Bool

/-- Modelled from the spec: the terminal orchestrator states. -/
def terminalPhase (ph : RunPhase) : Bool :=
  decide (ph = .CONVERGED ∨ ph = .DEGRADED ∨ ph = .FAILED)

/-- Modelled from the spec: one pass of the SCORING, VALIDATING and WRITING
stages followed by the orchestrator's recomputation.  A stage dependency
failing beyond its retry budget degrades the run; otherwise the deltas are
merged, the completeness score recomputed, the Feedback stage's questions
counted, and the run converges when the score reaches the target or the
iteration budget is spent, else loops back to SCORING with the iteration
counter advanced. -/
def runIteration (cfg : PipelineConfig) (s : PipelineRun) (inp : IterationInput) :
    PipelineRun :=
  if inp.upstreamFailed then
    { s with phase := .DEGRADED }
  else
    let p := mergeAnswers s.profile inp.confidenceGain
    let score := completenessScore p
    let q := s.questionsAsked + emitQuestions cfg p
    if cfg.target ≤ score ∨ cfg.max_iterations ≤ s.iteration then
      { profile := p, completeness_score := score, iteration := s.iteration,
        phase := .CONVERGED, questionsAsked := q }
    else
      { profile := p, completeness_score := score, iteration := s.iteration + 1,
        phase := .SCORING, questionsAsked := q }

/-- Modelled from the spec: when no further inbound message is obtainable,
the run is finalized — FAILED on the unrecoverable input-starvation
condition (parser confidence zero for every cluster with no answers ever
merged), DEGRADED otherwise (finalized with whatever data exists). -/
def finalizeRun (s : PipelineRun) : PipelineRun :=
  if terminalPhase s.phase then s
  else if definedKeys.all (fun k => decide ((s.profile k).confidence = 0)) then
    { s with phase := .FAILED }
  else
    { s with phase := .DEGRADED }

/-- Modelled from the spec: the orchestrator driving a run over the stream
of inbound conversation turns, stopping at a terminal state and finalizing
when the stream dries up. -/
def runPipeline (cfg : PipelineConfig) : PipelineRun → List IterationInput → PipelineRun
  | s, [] => finalizeRun s
  | s, inp :: rest =>
    if terminalPhase s.phase then s
    else runPipeline cfg (runIteration cfg s inp) rest

/-! ## Posting ingestion and dedup, match scorer, match record operations -/

/-- Modelled from the spec: the posting fingerprint — a stable hash of the
external id, normalized title and normalized company, modelled as the key
triple itself (the ingestion service is missing from the tree). -/
structure Fingerprint where
  external_id : String
  norm_title : String
  norm_company : String
deriving DecidableEq, Repr

/-- Modelled from the spec: title and company normalization before
fingerprinting; the specification leaves the canonicalization an
implementation choice, taken here as trimming and lower-casing. -/
def normalizeText (s : String) : String := ⟨(jsTrim s).data.map Char.toLower⟩

/-- Modelled from the spec: the fingerprint of a posting's identity. -/
def fingerprintOf (external_id title company : String) : Fingerprint :=
  { external_id := external_id
    norm_title := normalizeText title
    norm_company := normalizeText company }

/-- Modelled from the spec: a job posting as delivered by a source
collaborator. -/
structure IncomingPosting where
  external_id : String
  title : String
  company : String
  description : String
  closing_date : Option Nat
deriving DecidableEq, Repr

/-- Modelled from the spec: a stored posting — fingerprint, mutable fields,
and the time of first sighting. -/
structure StoredPosting where
  fingerprint : Fingerprint
  description : String
  closing_date : Option Nat
  ingested_at : Nat
deriving DecidableEq, Repr

/-- Modelled from the spec: the staleness window, thirty days. -/
def stalenessWindowDays : Nat := 30

/-- Modelled from the spec: upsert of an incoming posting (the ingestion
service is missing from the tree).  When a stored posting with the same
fingerprint was ingested within the staleness window, the mutable fields —
description and closing date — are updated in place and the time of first
sighting is preserved; otherwise the posting is inserted as new. -/
def upsertPosting (store : List StoredPosting) (p : IncomingPosting) (now : Nat) :
    List StoredPosting :=
  let fp := fingerprintOf p.external_id p.title p.company
  if store.any (fun q => decide (q.fingerprint = fp ∧ now - q.ingested_at ≤ stalenessWindowDays)) then
    store.map (fun q =>
      if q.fingerprint = fp ∧ now - q.ingested_at ≤ stalenessWindowDays then
        { q with description := p.description, closing_date := p.closing_date }
      else q)
  else
    store ++ [{ fingerprint := fp, description := p.description,
                closing_date := p.closing_date, ingested_at := now }]

/-- Modelled from the spec: the match status values. -/
inductive MatchStatus where
  | pending
  | saved
  | applied
  | removed
deriving DecidableEq, Repr

/-- Modelled from the spec: a persisted job match keyed by user and posting
fingerprint, with its fit score, status, optional boolean feedback and
creation time. -/
structure JobMatch where
  user_id : String
  posting_fingerprint : Fingerprint
  score : ℚ
  status : MatchStatus
  feedback : Option Bool
  created_at : Nat
deriving DecidableEq, Repr

/-- Modelled from the spec: the keyword-overlap weight of the scorer. -/
def w1 : ℚ := 2 / 5

/-- Modelled from the spec: the relevance-estimate weight of the scorer. -/
def w2 : ℚ := 3 / 5

/-- Modelled from the spec: the recommendation threshold. -/
def recommendThreshold : ℚ := 70

/-- Modelled from the spec: clamping a raw score into the 0 to 100 range. -/
def clampScore (x : ℚ) : ℚ := max 0 (min 100 x)

/-- Modelled from the spec: the fit score — the clamped weighted sum of the
keyword overlap and the relevance estimate (both collaborator-computed, so
taken as inputs; the match scorer itself is missing from the tree). -/
def matchScore (keyword_overlap relevance_estimate : ℚ) : ℚ :=
  clampScore (w1 * keyword_overlap + w2 * relevance_estimate)

/-- Modelled from the spec: the Match Scorer's persistence decision — a
JobMatch is created, pending and without feedback, exactly when the score
reaches the recommendation threshold; postings scoring below it are not
persisted. -/
def scoreMatch (user_id : String) (fp : Fingerprint)
    (keyword_overlap relevance_estimate : ℚ) (now : Nat) : Option JobMatch :=
  let s := matchScore keyword_overlap relevance_estimate
  if recommendThreshold ≤ s then
    some { user_id := user_id, posting_fingerprint := fp, score := s,
           status := .pending, feedback := none, created_at := now }
  else none

/-- Modelled from the spec: the backend handler behind the dashboard's
apply action (the handler is missing from the tree; the dashboard caller
only posts to the apply route).  Dashboard collaborators may update status
and feedback only, so the handler records the applied status and touches
nothing else. -/
def applyMatch (m : JobMatch) : JobMatch := { m with status := .applied }

/-- Modelled from the spec: the backend handler behind the dashboard's
remove action — the match record leaves the dashboard by moving to the
removed status; no other field changes. -/
def removeMatch (m : JobMatch) : JobMatch := { m with status := .removed }

/-- Modelled from the spec: the backend handler behind the dashboard's
thumbs up or down — the posted boolean is recorded as the match's feedback;
no other field changes. -/
def feedbackMatch (m : JobMatch) (b : Bool) : JobMatch := { m with feedback := some b }

/-- Modelled from the spec: the default toggles of an education cluster as
decided by the Feedback stage's bias-risk table. -/
structure EducationToggles where
  includeFlag : Bool
  hide_date : Bool
deriving DecidableEq, Repr

/-- Modelled from the spec: the bias-risk default for the education
cluster's graduation year — always included, with the date hidden when the
year lies more than fifteen years before the current year (the Feedback
stage's bias table is described only in the design documents). -/
def educationDefaultToggles (currentYear graduation_year : Int) : EducationToggles :=
  { includeFlag := true, hide_date := decide (15 < currentYear - graduation_year) }

/-- Modelled from the spec: the toggles the Feedback stage leaves on an
education cluster — an explicit user override wins, otherwise the bias-risk
defaults apply. -/
def educationToggles (currentYear graduation_year : Int)
    (override : Option EducationToggles) : EducationToggles :=
  override.getD (educationDefaultToggles currentYear graduation_year)

/-! ## Helper lemmas -/

theorem getCluster_setClusterInclude (p : ProfileStore) (k : ClusterKey) (b : Bool) :
    getCluster (setClusterInclude p k b) k
      = (getCluster p k).map (fun c => { c with includeFlag := b }) := by
  induction p with
  | nil => rfl
  | cons kc rest ih =>
    by_cases h : kc.1 = k
    · simp [setClusterInclude, getCluster, h]
    · simp only [setClusterInclude, List.map_cons, getCluster, if_neg h]
      exact ih

theorem getCluster_setClusterInclude_keys (p : ProfileStore) (k : ClusterKey) (b : Bool) :
    (setClusterInclude p k b).map Prod.fst = p.map Prod.fst := by
  induction p with
  | nil => rfl
  | cons kc rest ih =>
    by_cases h : kc.1 = k
    · simp [setClusterInclude, h] at ih ⊢
      exact ih
    · simp [setClusterInclude, if_neg h] at ih ⊢
      exact ih

theorem getCluster_setClusterData_keys (p : ProfileStore) (k : ClusterKey)
    (d : List String) (conf : ℚ) :
    (setClusterData p k d conf).map Prod.fst = p.map Prod.fst := by
  induction p with
  | nil => rfl
  | cons kc rest ih =>
    by_cases h : kc.1 = k
    · simp [setClusterData, h] at ih ⊢
      exact ih
    · simp [setClusterData, if_neg h] at ih ⊢
      exact ih

/-! ## Claim C5: dashboard operations touch only status and feedback -/

/-- C5: the dashboard-facing operations on a JobMatch — apply, remove and
submit feedback — update only the status and feedback fields of the match;
every other field, in particular the score, is unchanged. -/
theorem dashboard_ops_update_only_status_feedback (m : JobMatch) (b : Bool) :
    ((applyMatch m).score = m.score ∧ (applyMatch m).user_id = m.user_id ∧
     (applyMatch m).posting_fingerprint = m.posting_fingerprint ∧
     (applyMatch m).feedback = m.feedback ∧ (applyMatch m).created_at = m.created_at) ∧
    ((removeMatch m).score = m.score ∧ (removeMatch m).user_id = m.user_id ∧
     (removeMatch m).posting_fingerprint = m.posting_fingerprint ∧
     (removeMatch m).feedback = m.feedback ∧ (removeMatch m).created_at = m.created_at) ∧
    ((feedbackMatch m b).score = m.score ∧ (feedbackMatch m b).user_id = m.user_id ∧
     (feedbackMatch m b).posting_fingerprint = m.posting_fingerprint ∧
     (feedbackMatch m b).status = m.status ∧ (feedbackMatch m b).created_at = m.created_at) := by
  simp [applyMatch, removeMatch, feedbackMatch]

/-! ## Claim C6: cluster keys retained, include toggling reversible -/

/-- C6: profile operations keep every cluster key present (the key list of
the store is unchanged by toggling and by data updates), a cluster whose
include flag is false is retained rather than deleted, and toggling the
include flag from false back to true restores the cluster — in particular
its data — unchanged. -/
theorem profile_clusters_retained (p : ProfileStore) (k : ClusterKey) (b : Bool)
    (d : List String) (conf : ℚ) :
    ((setClusterInclude p k b).map Prod.fst = p.map Prod.fst) ∧
    ((setClusterData p k d conf).map Prod.fst = p.map Prod.fst) ∧
    ((getCluster (setClusterInclude p k false) k).map Cluster.data
      = (getCluster p k).map Cluster.data) ∧
    (getCluster (setClusterInclude (setClusterInclude p k false) k true) k
      = (getCluster p k).map (fun c => { c with includeFlag := true })) := by
  refine ⟨getCluster_setClusterInclude_keys p k b,
          getCluster_setClusterData_keys p k d conf, ?_, ?_⟩
  · rw [getCluster_setClusterInclude]
    cases getCluster p k <;> rfl
  · rw [getCluster_setClusterInclude, getCluster_setClusterInclude]
    cases getCluster p k <;> rfl

/-! ## Claim C7: education bias defaults for old graduation years -/

/-- C7: when the Feedback stage evaluates an education cluster whose
graduation year lies more than fifteen years before the current year, the
default toggles are include true and hide the date, unless the user has
explicitly overridden them. -/
theorem education_bias_defaults (currentYear graduation_year : Int)
    (h : 15 < currentYear - graduation_year) :
    educationToggles currentYear graduation_year none =
      { includeFlag := true, hide_date := true } ∧
    ∀ t, educationToggles currentYear graduation_year (some t) = t := by
  constructor
  · simp [educationToggles, educationDefaultToggles, h]
  · intro t
    rfl

/-- Witness for C7 at the claim's example, a graduation year twenty years
before the current year, and at an explicit override. -/
theorem education_bias_defaults_witness :
    educationToggles 2026 2006 none = { includeFlag := true, hide_date := true } ∧
    educationToggles 2026 2006 (some { includeFlag := true, hide_date := false })
      = { includeFlag := true, hide_date := false } :=
  ⟨(education_bias_defaults 2026 2006 (by decide)).1,
   (education_bias_defaults 2026 2006 (by decide)).2 _⟩

/-! ## Claim C8: save-token handler persists exactly the valid tokens -/

/-- C8: the options-page save-token handler persists the token to extension
storage exactly when the trimmed input is non-empty and splits on a dot
into three parts; in every other case the stored token is unchanged and one
of the two error status lines is shown instead. -/
theorem save_token_persists_iff (stored : Option String) (input : String) :
    (jsTrim input ≠ "" ∧ (jsSplit (jsTrim input) '.').length = 3 →
      saveTokenClick stored input =
        { storedToken := some (jsTrim input), status := "Token saved successfully!" }) ∧
    (¬ (jsTrim input ≠ "" ∧ (jsSplit (jsTrim input) '.').length = 3) →
      (saveTokenClick stored input).storedToken = stored ∧
      ((saveTokenClick stored input).status = "Please enter a token." ∨
       (saveTokenClick stored input).status =
         "Invalid token format. Please paste a valid JWT.")) := by
  unfold saveTokenClick
  constructor
  · rintro ⟨h1, h2⟩
    simp [h1, h2]
  · intro h
    by_cases h1 : jsTrim input = ""
    · simp [h1]
    · have h2 : (jsSplit (jsTrim input) '.').length ≠ 3 := fun hc => h ⟨h1, hc⟩
      simp [h1, h2]

/-- Witness for C8: a well-formed token is stored with the success status,
and a malformed one leaves a previously stored token untouched. -/
theorem save_token_persists_iff_witness :
    saveTokenClick none "aaa.bbb.ccc" =
      { storedToken := some "aaa.bbb.ccc", status := "Token saved successfully!" } ∧
    (saveTokenClick (some "x.y.z") "not-a-jwt").storedToken = some "x.y.z" :=
  ⟨(save_token_persists_iff none "aaa.bbb.ccc").1 (by decide),
   ((save_token_persists_iff (some "x.y.z") "not-a-jwt").2 (by decide)).1⟩

/-! ## Claim C9: popup fill-form success, cache fallback, no-fill case -/

/-- C9: in the popup fill-form flow, a successful profile request writes
the fetched profile to the local cache and fills the form with it; a failed
request with a cached profile fills the form from the cache; and no fields
are filled exactly when the request fails and no cached profile exists. -/
theorem fill_form_cache_fallback (cache : Option ProfileData) (result : FetchResult) :
    (∀ p, result = .ok p → fillFormFlow cache result = (some p, some p)) ∧
    (∀ p, result = .err → cache = some p → fillFormFlow cache result = (some p, some p)) ∧
    ((fillFormFlow cache result).2 = none ↔ result = .err ∧ cache = none) := by
  cases result <;> cases cache <;> simp [fillFormFlow]

/-- Witness for C9: a concrete successful fetch is cached and used, and a
concrete failure falls back to the cached profile. -/
theorem fill_form_cache_fallback_witness :
    fillFormFlow none (.ok { name := some "Ada Lovelace", location := none,
                             address := none, postal_code := none, linkedin_url := none,
                             portfolio_url := none, contact_info := none })
      = (some { name := some "Ada Lovelace", location := none, address := none,
                postal_code := none, linkedin_url := none, portfolio_url := none,
                contact_info := none },
         some { name := some "Ada Lovelace", location := none, address := none,
                postal_code := none, linkedin_url := none, portfolio_url := none,
                contact_info := none }) ∧
    fillFormFlow (some { name := some "Ada Lovelace", location := none, address := none,
                         postal_code := none, linkedin_url := none, portfolio_url := none,
                         contact_info := none }) .err
      = (some { name := some "Ada Lovelace", location := none, address := none,
                postal_code := none, linkedin_url := none, portfolio_url := none,
                contact_info := none },
         some { name := some "Ada Lovelace", location := none, address := none,
                postal_code := none, linkedin_url := none, portfolio_url := none,
                contact_info := none }) :=
  ⟨(fill_form_cache_fallback none (.ok _)).1 _ rfl,
   (fill_form_cache_fallback (some _) .err).2.1 _ rfl rfl⟩

/-! ## Claim C4: persisted matches score within bounds and at threshold -/

/-- C4: every JobMatch the Match Scorer persists has a score between 0 and
100 that is at least the recommendation threshold of 70 at creation time;
a posting scoring below the threshold yields no JobMatch. -/
theorem jobmatch_created_only_at_threshold (user_id : String) (fp : Fingerprint)
    (keyword_overlap relevance_estimate : ℚ) (now : Nat) :
    (∀ m, scoreMatch user_id fp keyword_overlap relevance_estimate now = some m →
       0 ≤ m.score ∧ m.score ≤ 100 ∧ recommendThreshold ≤ m.score) ∧
    (matchScore keyword_overlap relevance_estimate < recommendThreshold →
       scoreMatch user_id fp keyword_overlap relevance_estimate now = none) := by
  constructor
  · intro m hm
    unfold scoreMatch at hm
    simp only at hm
    by_cases hs : recommendThreshold ≤ matchScore keyword_overlap relevance_estimate
    · rw [if_pos hs] at hm
      have hms : m.score = matchScore keyword_overlap relevance_estimate := by
        cases hm
        rfl
      refine ⟨?_, ?_, hms ▸ hs⟩
      · rw [hms]
        exact le_max_left 0 _
      · rw [hms]
        exact max_le (by norm_num) (min_le_left 100 _)
    · rw [if_neg hs] at hm
      exact absurd hm (by simp)
  · intro h
    unfold scoreMatch
    simp only
    rw [if_neg (not_le.mpr h)]

/-- Witness for C4: a perfect-overlap posting is persisted with a score of
100, within bounds and at the threshold, and a zero-overlap posting
produces no match record. -/
theorem jobmatch_created_only_at_threshold_witness :
    (0 ≤ matchScore 100 100 ∧ matchScore 100 100 ≤ 100 ∧
      recommendThreshold ≤ matchScore 100 100) ∧
    scoreMatch "alice" { external_id := "j1", norm_title := "dev", norm_company := "acme" }
      0 0 0 = none :=
  ⟨(jobmatch_created_only_at_threshold "alice"
      { external_id := "j1", norm_title := "dev", norm_company := "acme" } 100 100 0).1
      { user_id := "alice"
        posting_fingerprint := { external_id := "j1", norm_title := "dev", norm_company := "acme" }
        score := matchScore 100 100
        status := .pending
        feedback := none
        created_at := 0 }
      (by norm_num [scoreMatch, matchScore, clampScore, w1, w2, recommendThreshold]),
   (jobmatch_created_only_at_threshold "alice"
      { external_id := "j1", norm_title := "dev", norm_company := "acme" } 0 0 0).2
      (by norm_num [matchScore, clampScore, w1, w2, recommendThreshold])⟩

/-! ## Claim C3: re-ingestion within the staleness window is an upsert -/

/-- C3: ingesting a posting with the same external id, normalized title and
normalized company twice within the staleness window, starting from a store
holding no posting with that fingerprint, yields exactly one stored posting
for the fingerprint, carrying the later description and closing date and
the ingestion time of the first sighting. -/
theorem ingest_twice_single_posting
    (store : List StoredPosting) (p1 p2 : IncomingPosting) (t1 t2 : Nat)
    (hfresh : ∀ q ∈ store,
      q.fingerprint ≠ fingerprintOf p1.external_id p1.title p1.company)
    (hsame : fingerprintOf p2.external_id p2.title p2.company
      = fingerprintOf p1.external_id p1.title p1.company)
    (hwin : t2 - t1 ≤ stalenessWindowDays) :
    (upsertPosting (upsertPosting store p1 t1) p2 t2).filter
        (fun q => decide (q.fingerprint = fingerprintOf p1.external_id p1.title p1.company))
      = [{ fingerprint := fingerprintOf p1.external_id p1.title p1.company,
           description := p2.description, closing_date := p2.closing_date,
           ingested_at := t1 }] := by
  set fp := fingerprintOf p1.external_id p1.title p1.company with hfpdef
  set r1 : StoredPosting :=
    { fingerprint := fp, description := p1.description,
      closing_date := p1.closing_date, ingested_at := t1 } with hr1def
  have h1 : upsertPosting store p1 t1 = store ++ [r1] := by
    unfold upsertPosting
    have hany : (store.any (fun q =>
        decide (q.fingerprint = fp ∧ t1 - q.ingested_at ≤ stalenessWindowDays))) = false := by
      simp only [List.any_eq_false, decide_eq_false_iff_not]
      intro q hq
      simp [hfresh q hq]
    simp only [← hfpdef, hany, Bool.false_eq_true, if_false]
  rw [h1]
  unfold upsertPosting
  simp only [hsame, ← hfpdef]
  have hany2 : ((store ++ [r1]).any (fun q =>
      decide (q.fingerprint = fp ∧ t2 - q.ingested_at ≤ stalenessWindowDays))) = true := by
    simp only [List.any_eq_true]
    refine ⟨r1, by simp, ?_⟩
    simp [hr1def, hwin]
  simp only [hany2, if_true]
  rw [List.map_append]
  have hmap : store.map (fun q =>
      if q.fingerprint = fp ∧ t2 - q.ingested_at ≤ stalenessWindowDays then
        { q with description := p2.description, closing_date := p2.closing_date }
      else q) = store := by
    conv_rhs => rw [← List.map_id store]
    refine List.map_congr_left ?_
    intro q hq
    rw [if_neg]
    · rfl
    · intro hc
      exact hfresh q hq hc.1
  rw [hmap]
  simp only [List.map_cons, List.map_nil]
  rw [if_pos ⟨trivial, hwin⟩]
  rw [List.filter_append]
  have hfilter : store.filter (fun q => decide (q.fingerprint = fp)) = [] := by
    simp only [List.filter_eq_nil_iff, decide_eq_true_eq]
    exact hfresh
  rw [hfilter]
  simp [hr1def]

/-- Witness for C3: the same posting seen as Dev at Acme and later, ten
days on, as dev at ACME (same identity after normalization) is stored once,
with the later description and the first sighting time. -/
theorem ingest_twice_single_posting_witness :
    (upsertPosting (upsertPosting []
        { external_id := "j1", title := "Dev", company := "Acme",
          description := "first", closing_date := none } 0)
        { external_id := "j1", title := " dev ", company := "ACME",
          description := "second", closing_date := none } 10).filter
        (fun q => decide (q.fingerprint = fingerprintOf "j1" "Dev" "Acme"))
      = [{ fingerprint := fingerprintOf "j1" "Dev" "Acme",
           description := "second", closing_date := none, ingested_at := 0 }] :=
  ingest_twice_single_posting []
    { external_id := "j1", title := "Dev", company := "Acme",
      description := "first", closing_date := none }
    { external_id := "j1", title := " dev ", company := "ACME",
      description := "second", closing_date := none }
    0 10 (by simp) (by decide) (by decide)

/-! ## Claim C1: completeness is non-decreasing across iterations -/

theorem contribution_mono (w : ℕ) (c : Cluster) (g : ℚ) (h1 : c.confidence ≤ 1) :
    contribution w c ≤ contribution w { c with confidence := min 1 (max c.confidence g) } := by
  unfold contribution
  simp only
  have hle : c.confidence ≤ min 1 (max c.confidence g) := le_min h1 (le_max_left _ _)
  have hw : (0 : ℚ) ≤ (w : ℚ) := Nat.cast_nonneg w
  by_cases hinc : c.includeFlag = true
  · by_cases hhalf : (1 : ℚ) / 2 ≤ c.confidence
    · rw [if_pos ⟨hinc, hhalf⟩, if_pos ⟨hinc, le_trans hhalf hle⟩]
    · rw [if_neg (fun hc => hhalf hc.2)]
      by_cases hhalf2 : (1 : ℚ) / 2 ≤ min 1 (max c.confidence g)
      · rw [if_pos ⟨hinc, hhalf2⟩]
        calc (w : ℚ) * c.confidence ≤ (w : ℚ) * 1 := mul_le_mul_of_nonneg_left h1 hw
          _ = (w : ℚ) := mul_one _
      · rw [if_neg (fun hc => hhalf2 hc.2)]
        exact mul_le_mul_of_nonneg_left hle hw
  · rw [if_neg (fun hc => hinc hc.1), if_neg (fun hc => hinc hc.1)]
    exact mul_le_mul_of_nonneg_left hle hw

theorem completenessScore_merge_mono (p : ClusterKey → Cluster) (g : ClusterKey → ℚ)
    (h1 : ∀ k, (p k).confidence ≤ 1) :
    completenessScore p ≤ completenessScore (mergeAnswers p g) := by
  unfold completenessScore mergeAnswers
  refine List.sum_le_sum ?_
  intro k _
  exact contribution_mono _ _ _ (h1 k)

/-- C1: after each WRITING-stage recomputation, the run's completeness
score is at least the score of the previous iteration of the same run (a
degraded iteration keeps the score, a completed iteration merges deltas
that only add information and recomputes). -/
theorem pipeline_completeness_monotone (cfg : PipelineConfig) (s : PipelineRun)
    (inp : IterationInput)
    (hscore : s.completeness_score = completenessScore s.profile)
    (hconf : ∀ k, (s.profile k).confidence ≤ 1) :
    s.completeness_score ≤ (runIteration cfg s inp).completeness_score := by
  unfold runIteration
  by_cases hf : inp.upstreamFailed = true
  · rw [if_pos hf]
  · rw [if_neg hf]
    simp only
    by_cases hcond : cfg.target ≤ completenessScore (mergeAnswers s.profile inp.confidenceGain)
        ∨ cfg.max_iterations ≤ s.iteration
    · rw [if_pos hcond]
      rw [hscore]
      exact completenessScore_merge_mono _ _ hconf
    · rw [if_neg hcond]
      rw [hscore]
      exact completenessScore_merge_mono _ _ hconf

/-- Witness for C1: a run started from empty extracted text does not lose
completeness when an iteration merges full-confidence answers. -/
theorem pipeline_completeness_monotone_witness :
    (initRun parseEmptyText).completeness_score ≤
      (runIteration defaultConfig (initRun parseEmptyText)
        { confidenceGain := fun _ => 1, upstreamFailed := false }).completeness_score :=
  pipeline_completeness_monotone defaultConfig (initRun parseEmptyText)
    { confidenceGain := fun _ => 1, upstreamFailed := false }
    rfl (fun _ => show (0 : ℚ) ≤ 1 by norm_num)

theorem runIteration_preserves (s : PipelineRun) (inp : IterationInput)
    (hq : s.questionsAsked ≤ 5 * (s.iteration - 1))
    (h1 : 1 ≤ s.iteration) (h2 : s.iteration ≤ 2) :
    (terminalPhase (runIteration defaultConfig s inp).phase = false →
       (runIteration defaultConfig s inp).questionsAsked
         ≤ 5 * ((runIteration defaultConfig s inp).iteration - 1) ∧
       1 ≤ (runIteration defaultConfig s inp).iteration ∧
       (runIteration defaultConfig s inp).iteration ≤ 2) ∧
    (terminalPhase (runIteration defaultConfig s inp).phase = true →
       (runIteration defaultConfig s inp).questionsAsked ≤ 10) := by
  have hemit : emitQuestions defaultConfig (mergeAnswers s.profile inp.confidenceGain) ≤ 5 :=
    min_le_left _ _
  unfold runIteration
  by_cases hf : inp.upstreamFailed = true
  · rw [if_pos hf]
    constructor
    · intro hcontra
      exact absurd (show terminalPhase RunPhase.DEGRADED = false from hcontra) (by decide)
    · intro _
      show s.questionsAsked ≤ 10
      omega
  · rw [if_neg hf]
    simp only
    by_cases hcond : defaultConfig.target ≤
        completenessScore (mergeAnswers s.profile inp.confidenceGain)
        ∨ defaultConfig.max_iterations ≤ s.iteration
    · rw [if_pos hcond]
      constructor
      · intro hcontra
        exact absurd (show terminalPhase RunPhase.CONVERGED = false from hcontra) (by decide)
      · intro _
        show s.questionsAsked + emitQuestions defaultConfig _ ≤ 10
        omega
    · rw [if_neg hcond]
      constructor
      · intro _
        have hi : ¬ defaultConfig.max_iterations ≤ s.iteration := fun h => hcond (Or.inr h)
        have hi2 : s.iteration < 2 := by
          simpa [defaultConfig] using hi
        refine ⟨?_, ?_, ?_⟩
        · show s.questionsAsked + emitQuestions defaultConfig _ ≤ 5 * (s.iteration + 1 - 1)
          omega
        · show 1 ≤ s.iteration + 1
          omega
        · show s.iteration + 1 ≤ 2
          omega
      · intro hcontra
        exact absurd (show terminalPhase RunPhase.SCORING = true from hcontra) (by decide)

theorem runPipeline_terminal_bounded (inputs : List IterationInput) :
    ∀ s : PipelineRun,
      (terminalPhase s.phase = false →
        s.questionsAsked ≤ 5 * (s.iteration - 1) ∧ 1 ≤ s.iteration ∧ s.iteration ≤ 2) →
      (terminalPhase s.phase = true → s.questionsAsked ≤ 10) →
      terminalPhase (runPipeline defaultConfig s inputs).phase = true ∧
        (runPipeline defaultConfig s inputs).questionsAsked ≤ 10 := by
  induction inputs with
  | nil =>
    intro s hnt ht
    unfold runPipeline finalizeRun
    by_cases hterm : terminalPhase s.phase = true
    · rw [if_pos hterm]
      exact ⟨hterm, ht hterm⟩
    · rw [if_neg hterm]
      have hb := hnt (by simpa using hterm)
      by_cases hall : (definedKeys.all fun k => decide ((s.profile k).confidence = 0)) = true
      · rw [if_pos hall]
        exact ⟨rfl, by show s.questionsAsked ≤ 10; omega⟩
      · rw [if_neg hall]
        exact ⟨rfl, by show s.questionsAsked ≤ 10; omega⟩
  | cons inp rest ih =>
    intro s hnt ht
    unfold runPipeline
    by_cases hterm : terminalPhase s.phase = true
    · rw [if_pos hterm]
      exact ⟨hterm, ht hterm⟩
    · rw [if_neg hterm]
      have hb := hnt (by simpa using hterm)
      have hpres := runIteration_preserves s inp hb.1 hb.2.1 hb.2.2
      exact ih _ hpres.1 hpres.2

/-- C2: a pipeline run started on empty extracted text with the default
configuration (two iterations, target 90, five pending questions)
terminates in CONVERGED, DEGRADED or FAILED whatever the conversation
stream holds, and asks at most ten questions over the whole run. -/
theorem pipeline_empty_text_terminates (inputs : List IterationInput) :
    ((runPipeline defaultConfig (initRun parseEmptyText) inputs).phase = RunPhase.CONVERGED ∨
     (runPipeline defaultConfig (initRun parseEmptyText) inputs).phase = RunPhase.DEGRADED ∨
     (runPipeline defaultConfig (initRun parseEmptyText) inputs).phase = RunPhase.FAILED) ∧
    (runPipeline defaultConfig (initRun parseEmptyText) inputs).questionsAsked ≤ 5 * 2 := by
  have h := runPipeline_terminal_bounded inputs (initRun parseEmptyText)
    (fun _ => by refine ⟨?_, ?_, ?_⟩ <;> show _ ≤ _ <;> norm_num [initRun])
    (fun hcontra => by simp [initRun, terminalPhase] at hcontra)
  refine ⟨?_, by simpa using h.2⟩
  have := h.1
  unfold terminalPhase at this
  simpa using this

/-! ## Claim C10: profile-form serialization shape -/

theorem getField_setField_self (fields : JObj) (k : String) (v : JVal) :
    getField (setField fields k v) k = some v := by
  induction fields with
  | nil => simp [setField, getField]
  | cons kv rest ih =>
    by_cases h : kv.1 = k
    · simp [setField, getField, h]
    · simp [setField, getField, h, ih]

theorem getField_setField_ne (fields : JObj) (k k' : String) (v : JVal) (h : k' ≠ k) :
    getField (setField fields k v) k' = getField fields k' := by
  induction fields with
  | nil => simp [setField, getField, Ne.symm h]
  | cons kv rest ih =>
    by_cases hh : kv.1 = k
    · simp [setField, getField, hh, Ne.symm h]
    · simp [setField, getField, hh, ih]

theorem insertEntry_plain (root : JObj) (key value : String)
    (h : jsSplit key '.' = [key]) :
    insertEntry root key value = setField root key (entryValue key value) := by
  unfold insertEntry
  rw [h]
  rfl

theorem filterKey_at (root : JObj) (key : String) (items : List (Option JVal))
    (h : getField root key = some (JVal.arr items)) :
    filterKey root key = setField root key (JVal.arr (items.filter keepItem)) := by
  unfold filterKey
  rw [h]

theorem getField_filterKey_ne (root : JObj) (key k' : String) (h : k' ≠ key) :
    getField (filterKey root key) k' = getField root k' := by
  unfold filterKey
  split
  · next items heq =>
    rw [getField_setField_ne _ _ _ _ h]
  · rfl

theorem keepItem_string_items (item : List (String × String)) :
    keepItem (some (JVal.obj (item.map (fun kv => (kv.1, JVal.str kv.2))))) = false
      ↔ ∀ kv ∈ item, kv.2 = "" := by
  simp [keepItem, jtruthy, List.any_map, Function.comp_def]
  constructor
  · intro h a b hab
    have h2 := h a (JVal.str b) a b hab rfl rfl
    simpa [String.isEmpty_iff] using h2
  · intro h a b x x1 hmem hxa hxb
    subst hxb
    have h2 := h x x1 hmem
    simp [h2]
    rfl

/-- C10: the profile-form serialization behaves as claimed — a form field
whose undotted name mentions skills or suggested keywords is sent as the
comma-split, trimmed list; a field whose undotted name mentions neither is
sent as its raw string value, and at any nesting depth the final assignment
stores the raw string for such names; the cleanup before the PUT filters
the work_experience and education arrays with keepItem; and a string-valued
item survives that filter exactly when some of its values is non-empty,
missing items never survive. -/
theorem profile_form_serialization :
    (∀ (root : JObj) (key value : String),
       jsSplit key '.' = [key] →
       (strMentions key "skills" = true ∨ strMentions key "suggested_keywords" = true) →
       getField (insertEntry root key value) key
         = some (JVal.strList ((jsSplit value ',').map jsTrim))) ∧
    (∀ (root : JObj) (key value : String),
       jsSplit key '.' = [key] →
       strMentions key "skills" = false →
       strMentions key "suggested_keywords" = false →
       getField (insertEntry root key value) key = some (JVal.str value)) ∧
    (∀ (fields : JObj) (finalKey value : String),
       strMentions finalKey "skills" = false →
       strMentions finalKey "suggested_keywords" = false →
       insertGo (JVal.obj fields) [] finalKey value
         = JVal.obj (setField fields finalKey (JVal.str value))) ∧
    (∀ (root : JObj) (we ed : List (Option JVal)),
       getField root "work_experience" = some (JVal.arr we) →
       getField root "education" = some (JVal.arr ed) →
       getField (cleanupProfileData root) "work_experience"
           = some (JVal.arr (we.filter keepItem)) ∧
       getField (cleanupProfileData root) "education"
           = some (JVal.arr (ed.filter keepItem))) ∧
    (∀ (item : List (String × String)),
       (keepItem (some (JVal.obj (item.map (fun kv => (kv.1, JVal.str kv.2))))) = false
         ↔ ∀ kv ∈ item, kv.2 = "") ∧
       keepItem none = false) := by
  refine ⟨?_, ?_, ?_, ?_, ?_⟩
  · intro root key value hplain hsk
    rw [insertEntry_plain root key value hplain, getField_setField_self]
    unfold entryValue
    rcases hsk with h | h <;> simp [h]
  · intro root key value hplain h1 h2
    rw [insertEntry_plain root key value hplain, getField_setField_self]
    unfold entryValue
    simp [h1, h2]
  · intro fields finalKey value h1 h2
    show JVal.obj (setField fields finalKey (entryValue finalKey value)) = _
    unfold entryValue
    simp [h1, h2]
  · intro root we ed hwe hed
    unfold cleanupProfileData
    rw [filterKey_at root "work_experience" we hwe]
    have hed2 : getField (setField root "work_experience" (JVal.arr (we.filter keepItem)))
        "education" = some (JVal.arr ed) := by
      rw [getField_setField_ne _ _ _ _ (by decide)]
      exact hed
    rw [filterKey_at _ "education" _ hed2]
    constructor
    · rw [getField_setField_ne _ _ _ _ (by decide)]
      exact getField_setField_self _ _ _
    · exact getField_setField_self _ _ _
  · intro item
    exact ⟨keepItem_string_items item, rfl⟩

/-- Witness for C10: the enhanced skills field is sent as the comma-split
trimmed list, the salary range field as its raw string, the cleanup filters
a concrete work experience array, and an all-empty item is dropped. -/
theorem profile_form_serialization_witness :
    getField (insertEntry [] "enhanced_skills" "python, ml") "enhanced_skills"
      = some (JVal.strList ((jsSplit "python, ml" ',').map jsTrim)) ∧
    getField (insertEntry [] "salary_range" "90k") "salary_range"
      = some (JVal.str "90k") ∧
    getField (cleanupProfileData
        [("work_experience", JVal.arr [some (JVal.obj [("title", JVal.str "")]), none,
                                       some (JVal.obj [("title", JVal.str "dev")])]),
         ("education", JVal.arr [])]) "work_experience"
      = some (JVal.arr ([some (JVal.obj [("title", JVal.str "")]), none,
                         some (JVal.obj [("title", JVal.str "dev")])].filter keepItem)) ∧
    (keepItem (some (JVal.obj ([("title", ""), ("company", "")].map
        (fun kv => (kv.1, JVal.str kv.2))))) = false ↔
      ∀ kv ∈ ([("title", ""), ("company", "")] : List (String × String)), kv.2 = "") :=
  ⟨profile_form_serialization.1 [] "enhanced_skills" "python, ml" (by decide)
     (Or.inl (by decide)),
   profile_form_serialization.2.1 [] "salary_range" "90k" (by decide) (by decide) (by decide),
   (profile_form_serialization.2.2.2.1
      [("work_experience", JVal.arr [some (JVal.obj [("title", JVal.str "")]), none,
                                     some (JVal.obj [("title", JVal.str "dev")])]),
       ("education", JVal.arr [])]
      [some (JVal.obj [("title", JVal.str "")]), none,
       some (JVal.obj [("title", JVal.str "dev")])] [] rfl rfl).1,
   (profile_form_serialization.2.2.2.2 [("title", ""), ("company", "")]).1⟩
